import Mathlib

/-!
# Verification of the ats-scrapers normalization / dedup / upsert pipeline

Shallow embedding of the core logic of the `stapply-ai/ats-scrapers`
repository:

* `google/parser.py` — positional-array adapter (`_coerce_str`,
  `_extract_location_name`, `_format_locations`, `normalize_job_entry`);
* `google/export_to_csv.py` — batch deduplication and CSV row building
  (`_unique_key`, `_job_to_row`, the aggregation loop of `main`);
* `ashby/process_ashby.py` — the upsert executor
  (`get_or_create_company`, `generate_embedding`,
  `convert_ashby_to_database_job`, the per-job loop of
  `process_ashby_companies`);
* `greenhouse/extract_companies_gh.py` and
  `workable/extract_companies_workable.py` — URL-slug extractors and their
  monotone merge with previously persisted company sets.

Dynamic Python values (JSON cells) are embedded as the inductive `PyVal`;
external collaborators (the OpenAI embedding client, UUID parsing by the
`uuid` library, write success of the storage layer) are passed as explicit
function parameters, so that faults can be instantiated concretely.
-/

/-! ## Dynamic values: embedding of the JSON cells seen by `google/parser.py` -/

/-- A dynamic (Python/JSON) value as handled by `google/parser.py`:
strings, (nested) lists, `None`, numbers and booleans. -/
inductive PyVal where
  | str (s : String)
  | list (xs : List PyVal)
  | null
  | num (n : Int)
  | bool (b : Bool)

/-- Python's `str.strip()`: remove leading and trailing whitespace.  Defined
over the character list so that it evaluates by kernel reduction. -/
def pyStrip (s : String) : String :=
  ⟨((s.data.dropWhile Char.isWhitespace).reverse.dropWhile Char.isWhitespace).reverse⟩

/-- `_coerce_str` from `google/parser.py` (lines 31-32): `value.strip()`
when the value is a string, `""` otherwise.  The argument is an
`Option PyVal` because `normalize_job_entry.get` yields Python `None`
for an out-of-range index. -/
def coerce_str : Option PyVal → String
  | some (.str s) => pyStrip s
  | _ => ""

/-- Inner loop of `_extract_location_name` (lines 45-50): scan the items of a
nested list for the first string whose strip is non-empty. -/
def extractLocFromSubs : List PyVal → Option String
  | [] => none
  | .str s :: rest =>
      let candidate := pyStrip s
      if candidate ≠ "" then some candidate else extractLocFromSubs rest
  | _ :: rest => extractLocFromSubs rest

/-- Outer loop of `_extract_location_name` (lines 39-50): a string item
yields its strip when non-empty; a list item is scanned one level deep. -/
def extractLocFromItems : List PyVal → Option String
  | [] => none
  | .str s :: rest =>
      let candidate := pyStrip s
      if candidate ≠ "" then some candidate else extractLocFromItems rest
  | .list subs :: rest =>
      match extractLocFromSubs subs with
      | some c => some c
      | none => extractLocFromItems rest
  | _ :: rest => extractLocFromItems rest

/-- `_extract_location_name` from `google/parser.py` (lines 35-51). -/
def extract_location_name : PyVal → Option String
  | .str s =>
      let candidate := pyStrip s
      if candidate ≠ "" then some candidate else none
  | .list items => extractLocFromItems items
  | _ => none

/-- Accumulating loop of `_format_locations` (lines 57-61): collect the
extracted names in first-seen order, skipping duplicates. -/
def collectLocations : List PyVal → List String → List String
  | [], acc => acc
  | raw :: rest, acc =>
      match extract_location_name raw with
      | some name =>
          if name ∈ acc then collectLocations rest acc
          else collectLocations rest (acc ++ [name])
      | none => collectLocations rest acc

/-- `_format_locations` from `google/parser.py` (lines 54-62): `""` for a
non-list value, otherwise the deduplicated names joined with `", "`. -/
def format_locations : PyVal → String
  | .list raws => String.intercalate ", " (collectLocations raws [])
  | _ => ""

/-! ## `normalize_job_entry` (google/parser.py lines 65-87) -/

/-- The draft record produced by the positional-array adapter: the dict
returned by `normalize_job_entry`. -/
structure Draft where
  url : String
  title : String
  location : String
  company : String
  ats_id : String
  deriving DecidableEq, Repr

/-- The local `get` of `normalize_job_entry` (lines 69-70):
`entry[idx]` when in range, Python `None` (here `none`) otherwise. -/
def entryGet (entry : List PyVal) (idx : Nat) : Option PyVal :=
  entry[idx]?

/-- `normalize_job_entry` from `google/parser.py` (lines 65-87), on list
rows.  Returns `none` for an empty row or when both the id at offset 0 and
the url at offset 2 are blank after coercion; otherwise the draft dict. -/
def normalize_job_entry (entry : List PyVal) : Option Draft :=
  if entry.isEmpty then none
  else
    let ats_id := coerce_str (entryGet entry 0)
    let title := coerce_str (entryGet entry 1)
    let url := coerce_str (entryGet entry 2)
    let company := let c := coerce_str (entryGet entry 7); if c = "" then "Google" else c
    let locations :=
      match entryGet entry 9 with
      | some v => format_locations v
      | none => ""
    if ats_id = "" ∧ url = "" then none
    else some { url := url, title := title, location := locations,
                company := company, ats_id := ats_id }

/-! ## Identity generator (export_utils.generate_job_id) and CSV export
(google/export_to_csv.py) -/

/-- One hex digit (lowercase). -/
def hexDigit (n : Nat) : Char :=
  if n < 10 then Char.ofNat (48 + n) else Char.ofNat (87 + n % 16)

/-- Little-endian list of `w` hex digits of `v`. -/
def hexRev : Nat → Nat → List Char
  | 0, _ => []
  | w + 1, v => hexDigit (v % 16) :: hexRev w (v / 16)

/-- A deterministic digest of a string (FNV-1a style, 64-bit). -/
def strDigest (s : String) : Nat :=
  s.data.foldl (fun h c => ((h ^^^ c.toNat) * 1099511628211) % (2 ^ 64))
    14695981039346656037

/-- Modelled from the spec: `generate_job_id` is imported from
`export_utils`, a module of this repository that is not among the supplied
source files.  Per the spec (§4.2) it is a deterministic digest of the
concatenation of the source name and the natural-key fields in a fixed
order with a fixed separator (`"google" + "\x1f" + url + "\x1f" + ats_id`),
truncated/encoded to a fixed-width string, with no randomness and no
current-time input. -/
def generate_job_id (source : String) (url : String) (ats_id : String) : String :=
  let payload := source ++ "\x1f" ++ url ++ "\x1f" ++ ats_id
  ⟨(hexRev 16 (strDigest payload)).reverse⟩

/-- A row of `jobs.csv` as built by `_job_to_row`
(google/export_to_csv.py lines 48-59). -/
structure CsvRow where
  url : String
  title : String
  location : String
  company : String
  ats_id : String
  id : String
  deriving DecidableEq, Repr

/-- `_unique_key` from `google/export_to_csv.py` (lines 44-45):
the pair `(ats_id or "", url or "")`.  The parser's drafts store plain
strings, so Python's `or ""` is the identity here. -/
def unique_key (job : Draft) : String × String :=
  (job.ats_id, job.url)

/-- `_job_to_row` from `google/export_to_csv.py` (lines 48-59). -/
def job_to_row (job : Draft) : CsvRow :=
  { url := job.url, title := job.title, location := job.location,
    company := job.company, ats_id := job.ats_id,
    id := generate_job_id "google" job.url job.ats_id }

/-- Key of an output row, for stating deduplication. -/
def rowKey (r : CsvRow) : String × String :=
  (r.ats_id, r.url)

/-- The aggregation loop of `main` (google/export_to_csv.py lines 68-81),
generalized over the running `seen` set (modelled as a list with
membership): skip a job when its key is entirely empty
(`if not any(key)`) or already seen, otherwise record the key and emit
the row. -/
def aggregateAux (seen : List (String × String)) : List Draft → List CsvRow
  | [] => []
  | job :: rest =>
      if unique_key job = ("", "") then aggregateAux seen rest
      else if unique_key job ∈ seen then aggregateAux seen rest
      else job_to_row job :: aggregateAux (unique_key job :: seen) rest

/-- The full aggregation of `main` over the concatenated parsed jobs of all
payload files, starting from an empty `seen` set. -/
def aggregate_jobs (jobs : List Draft) : List CsvRow :=
  aggregateAux [] jobs

/-! ## Upsert executor (ashby/process_ashby.py) -/

/-- The fields of `models.ashby.AshbyJob` consumed by
`ashby/process_ashby.py`. -/
structure AshbyJob where
  id : String
  title : String
  location : String
  description_plain : String
  employment_type : String
  is_remote : Option Bool
  apply_url : String
  published_at : Option String
  job_url : String
  is_listed : Bool
  deriving DecidableEq, Repr

/-- The fields of `models.db.DatabaseJob` populated by
`convert_ashby_to_database_job`. -/
structure DatabaseJob where
  id : String
  url : String
  title : String
  location : String
  company : String
  description : String
  employment_type : String
  remote : Option Bool
  application_url : String
  posted_at : Option String
  source : String
  ats_type : String
  company_id : String
  embedding : Option String
  title_embedding : Option String
  is_active : Bool
  deriving DecidableEq, Repr

/-- External collaborators of the upsert executor, passed explicitly:
the OpenAI embeddings call (an `Except` models a raised exception), the
`uuid.UUID` constructor (`none` models a raised `ValueError`), and the
storage layer's per-write success (spec §6: `upsert(record) -> success |
failure`; a `false` models `session.commit()` raising). -/
structure AshbyEnv where
  client : String → Except String String
  parseUUID : String → Option String
  writeOk : DatabaseJob → Bool

/-- `generate_embedding` from `ashby/process_ashby.py` (lines 84-93): call
the OpenAI client; on any exception, report and return `None`. -/
def generate_embedding (client : String → Except String String)
    (input : String) : Option String :=
  match client input with
  | .ok v => some v
  | .error _ => none

/-- `convert_ashby_to_database_job` from `ashby/process_ashby.py`
(lines 96-121).  `UUID(ashby_job.id)` is modelled by the injected
`parseUUID`; `none` models the constructor raising. -/
def convert_ashby_to_database_job (parseUUID : String → Option String)
    (ashby_job : AshbyJob) (company_name : String) (company_id : String)
    (description_embedding : Option String) (title_embedding : Option String) :
    Option DatabaseJob :=
  (parseUUID ashby_job.id).map fun uid =>
    { id := uid
      url := ashby_job.job_url
      title := ashby_job.title
      location := ashby_job.location
      company := company_name
      description := ashby_job.description_plain
      employment_type := ashby_job.employment_type
      remote := ashby_job.is_remote
      application_url := ashby_job.apply_url
      posted_at := ashby_job.published_at
      source := "ashby"
      ats_type := "ashby"
      company_id := company_id
      embedding := description_embedding
      title_embedding := title_embedding
      is_active := ashby_job.is_listed }

/-- The committed `jobs` table, keyed by `id`. -/
def upsertJob (table : List DatabaseJob) (db_job : DatabaseJob) :
    List DatabaseJob :=
  if table.any (fun r => r.id == db_job.id) then
    table.map (fun r => if r.id == db_job.id then db_job else r)
  else table ++ [db_job]

/-- The record produced by one iteration of the per-job loop of
`process_ashby_companies` (lines 180-205): compute the description
embedding only when `description_plain` is truthy, always compute the
title embedding from `f"{title}; {location}"`, then convert.  `none`
models an exception inside the `try` block before the write. -/
def job_attempt (env : AshbyEnv) (company_name : String) (company_id : String)
    (ashby_job : AshbyJob) : Option DatabaseJob :=
  let description_embedding :=
    if ashby_job.description_plain ≠ "" then
      generate_embedding env.client ashby_job.description_plain
    else none
  let title_embedding :=
    generate_embedding env.client (ashby_job.title ++ "; " ++ ashby_job.location)
  convert_ashby_to_database_job env.parseUUID ashby_job company_name company_id
    description_embedding title_embedding

/-- One iteration of the per-job `try` block of `process_ashby_companies`
(lines 179-228): embeddings, conversion, then the existing-row check and
write followed by `session.commit()`.  `.error ()` models an exception
caught by the per-job `except`: the durable table is the state before the
iteration (the `session.rollback()` discards only uncommitted changes;
the only `commit` in the block is the final one). -/
def process_one_job (env : AshbyEnv) (company_name : String)
    (company_id : String) (table : List DatabaseJob) (ashby_job : AshbyJob) :
    Except Unit (List DatabaseJob) :=
  match job_attempt env company_name company_id ashby_job with
  | none => .error ()
  | some db_job =>
      if env.writeOk db_job then .ok (upsertJob table db_job)
      else .error ()

/-- The per-job loop of `process_ashby_companies` (lines 179-228): on
success continue with the committed table and `total_jobs_processed += 1`;
on a caught exception, roll back and `continue` with the unchanged
table.  Returns the final committed table and the final total. -/
def process_jobs (env : AshbyEnv) (company_name : String)
    (company_id : String) : List DatabaseJob → List AshbyJob →
    List DatabaseJob × Nat
  | table, [] => (table, 0)
  | table, ashby_job :: rest =>
      match process_one_job env company_name company_id table ashby_job with
      | .ok table' =>
          let r := process_jobs env company_name company_id table' rest
          (r.1, r.2 + 1)
      | .error _ => process_jobs env company_name company_id table rest

/-- Whether one job's processing succeeds (commits); this is independent of
the table state, since conversion and the write check depend only on the
job. -/
def job_attempt_ok (env : AshbyEnv) (company_name : String)
    (company_id : String) (ashby_job : AshbyJob) : Bool :=
  match job_attempt env company_name company_id ashby_job with
  | some db_job => env.writeOk db_job
  | none => false

/-- Modelled from the spec: the number of failed records of a run, which
§4.5/§7 say the executor reports ("an aggregate count of
processed/succeeded/failed records").  A record fails exactly when its
iteration raises and is rolled back. -/
def spec_failed_count (env : AshbyEnv) (company_name : String)
    (company_id : String) (jobs : List AshbyJob) : Nat :=
  jobs.countP (fun j => !job_attempt_ok env company_name company_id j)

/-! ## Company resolver (ashby/process_ashby.py lines 72-81) -/

/-- A row of the `companies` table. -/
structure CompanyRow where
  id : String
  name : String
  deriving DecidableEq, Repr

/-- `get_or_create_company` from `ashby/process_ashby.py` (lines 72-81):
look up by exact name (`filter_by(name=...).first()`); if found return its
id, else add a new row — whose id the storage layer assigns
(`gen_random_uuid()`), modelled by the injected `freshId` — commit
immediately, and return the new id.  The returned table is the committed
state, so a subsequent lookup in the same run sees the new row. -/
def get_or_create_company (freshId : List CompanyRow → String)
    (table : List CompanyRow) (company_name : String) :
    String × List CompanyRow :=
  match table.find? (fun c => c.name == company_name) with
  | some c => (c.id, table)
  | none =>
      let newId := freshId table
      (newId, table ++ [{ id := newId, name := company_name }])

/-! ## URL-slug extractors (greenhouse/extract_companies_gh.py and
workable/extract_companies_workable.py) -/

/-- `urllib.parse.urlparse(url).path`: drop the fragment (from the first
`#`) and the query (from the first `?`); after a `scheme://netloc`, the
path is everything from the first `/` following the netloc; without a
`://` the whole remainder is the path. -/
def urlparse_path (url : String) : String :=
  let noFrag := (url.splitOn "#").headD ""
  let noQuery := (noFrag.splitOn "?").headD ""
  match noQuery.splitOn "://" with
  | [] => ""
  | [p] => p
  | _ :: rest =>
      match (String.intercalate "://" rest).splitOn "/" with
      | [] => ""
      | [_] => ""
      | _ :: segs => "/" ++ String.intercalate "/" segs

/-- `extract_company_slug`, identical in
`greenhouse/extract_companies_gh.py` (lines 11-28) and
`workable/extract_companies_workable.py` (lines 11-27): strip, drop one
trailing `/`, parse the URL, then match the path against
`^/([^/]+)(?:/jobs/.*)?` (greenhouse) resp. `^/([^/]+)` (workable) — the
optional non-capturing greenhouse tail never changes group 1, so both
return the first path segment, or `None` when the path does not start
with `/` followed by at least one non-`/` character. -/
def extract_company_slug (url : String) : Option String :=
  let u := pyStrip url
  let u := if u.endsWith "/" then u.dropRight 1 else u
  let path := urlparse_path u
  if path.startsWith "/" then
    match ((path.drop 1).splitOn "/") with
    | [] => none
    | seg :: _ => if seg = "" then none else some seg
  else none

/-- The greenhouse base URL used by the `startswith` filters
(`extract_companies_gh.py` lines 39, 55, 70). -/
def ghUrlBase : String := "https://job-boards.greenhouse.io/"

/-- The workable base URL used by the `startswith` filters
(`extract_companies_workable.py` lines 43, 59, 74). -/
def workableUrlBase : String := "https://apply.workable.com/"

/-- `extract_from_greenhouse_file` / `extract_from_workable_file`
(lines 48-61 resp. 52-65), generic in the base URL: for each line, strip
it, and when it starts with the base URL add its extracted slug (when
any) to the company set. -/
def extract_slugs_from_lines (base : String) (lines : List String) :
    Finset String :=
  lines.foldl (fun companies line =>
    let url := pyStrip line
    if url.startsWith base then
      match extract_company_slug url with
      | some slug => insert slug companies
      | none => companies
    else companies) ∅

/-- `read_existing_companies` (gh lines 31-45, workable lines 30-49),
generic in the base URL: skip the header row, and for each non-empty row
whose first cell starts with the base URL, add its extracted slug. -/
def read_existing_companies (base : String) (rows : List (List String)) :
    Finset String :=
  (rows.drop 1).foldl (fun companies row =>
    match row with
    | [] => companies
    | cell :: _ =>
        if cell.startsWith base then
          match extract_company_slug cell with
          | some slug => insert slug companies
          | none => companies
        else companies) ∅

/-- `write_companies_csv` (gh lines 64-70, workable lines 68-74): a header
row, then one row `base ++ slug` per slug in sorted order. -/
def write_companies_csv (base : String) (companies : Finset String) :
    List (List String) :=
  ["url"] :: (companies.sort (· ≤ ·)).map (fun c => [base ++ c])

/-- `main` of either extractor (gh lines 73-101, workable lines 77-105):
extract the slug set from the input URL file, read the previously
persisted slugs, take the union and the new-vs-existing delta, and write
the union back.  Returns (union, delta, written CSV rows). -/
def extractor_main (base : String) (inputLines : List String)
    (existingRows : List (List String)) :
    Finset String × Finset String × List (List String) :=
  let foundCompanies := extract_slugs_from_lines base inputLines
  let existing_companies := read_existing_companies base existingRows
  let all_companies := existing_companies ∪ foundCompanies
  let new_companies := foundCompanies \ existing_companies
  (all_companies, new_companies, write_companies_csv base all_companies)

/-! ## Concrete fixtures for witnesses and counterexamples -/

/-- An Ashby job fixture with the given id, title, location and plain
description. -/
def mkAshbyJob (i : String) (t : String) (l : String) (d : String) : AshbyJob :=
  { id := i, title := t, location := l, description_plain := d,
    employment_type := "FullTime", is_remote := some false,
    apply_url := "https://jobs.ashbyhq.com/acme/" ++ i ++ "/application",
    published_at := some "2025-01-01T00:00:00",
    job_url := "https://jobs.ashbyhq.com/acme/" ++ i, is_listed := true }

/-- Collaborators where every embedding call succeeds, every write
succeeds, and exactly the id `"not-a-uuid"` makes `UUID(...)` raise. -/
def demoEnv : AshbyEnv :=
  { client := fun _ => .ok "[0.1, 0.2]"
    parseUUID := fun s => if s = "not-a-uuid" then none else some s
    writeOk := fun _ => true }

/-- A record whose conversion fails (`UUID("not-a-uuid")` raises). -/
def badAshbyJob : AshbyJob :=
  mkAshbyJob "not-a-uuid" "Bad job" "Nowhere" "bad desc"

/-- A record that processes successfully under `demoEnv`. -/
def goodJob1 : AshbyJob := mkAshbyJob "id-a" "Job A" "Loc A" "desc a"

/-- Another record that processes successfully under `demoEnv`. -/
def goodJob2 : AshbyJob := mkAshbyJob "id-b" "Job B" "Loc B" "desc b"

/-- Collaborators where the embedding API call is forced to fail exactly
for record 3 of `c3Batch` (its description text and its
`f"{title}; {location}"` text), all ids parse, and all writes succeed. -/
def c3Env : AshbyEnv :=
  { client := fun s =>
      if s = "desc three" ∨ s = "Job three; Loc three" then
        .error "APIConnectionError"
      else .ok "[0.25, 0.5]"
    parseUUID := fun s => some s
    writeOk := fun _ => true }

/-- A batch of 5 drafts; record 3's embedding calls fail under `c3Env`. -/
def c3Batch : List AshbyJob :=
  [mkAshbyJob "id-1" "Job one" "Loc one" "desc one",
   mkAshbyJob "id-2" "Job two" "Loc two" "desc two",
   mkAshbyJob "id-3" "Job three" "Loc three" "desc three",
   mkAshbyJob "id-4" "Job four" "Loc four" "desc four",
   mkAshbyJob "id-5" "Job five" "Loc five" "desc five"]

/-- Collaborators where the embedding API call fails for the single job
`c1Job` while its id parses and its write succeeds. -/
def c1Env : AshbyEnv :=
  { client := fun s =>
      if s = "desc emb" ∨ s = "Emb job; Loc emb" then .error "APIError"
      else .ok "[0.75]"
    parseUUID := fun s => some s
    writeOk := fun _ => true }

/-- A job whose embedding calls fail under `c1Env`. -/
def c1Job : AshbyJob := mkAshbyJob "id-emb" "Emb job" "Loc emb" "desc emb"

/-- First draft of the spec's dedup example: nativeId
`"75727382358434502"`, empty url. -/
def dupDraftA : Draft :=
  { url := "", title := "Customer Solutions Engineer", location := "Singapore",
    company := "Google", ats_id := "75727382358434502" }

/-- Second draft with the identical natural key but a different title. -/
def dupDraftB : Draft :=
  { url := "", title := "Staff Engineer", location := "Singapore",
    company := "Google", ats_id := "75727382358434502" }

/-- A two-draft batch with one duplicated natural key. -/
def demoDrafts : List Draft := [dupDraftA, dupDraftB]

/-- A positional row whose raw locations field (offset 9) is a bare
non-empty string rather than a list. -/
def bareLocationEntry : List PyVal :=
  [.str "job-1", .str "Engineer", .str "https://g/1", .null, .null, .null,
   .null, .null, .null, .str "Paris"]

/-- The draft `normalize_job_entry` produces for `bareLocationEntry`. -/
def bareLocationDraft : Draft :=
  { url := "https://g/1", title := "Engineer", location := "",
    company := "Google", ats_id := "job-1" }

/-! ## Theorems -/

/-- Auxiliary: `hexRev` always yields exactly `w` digits. -/
theorem hexRev_length : ∀ (w v : Nat), (hexRev w v).length = w
  | 0, _ => rfl
  | w + 1, v => by simp [hexRev, hexRev_length w]

/-- C6: `_format_locations` on the raw input
`[["New York", "NY"], "Remote", ["New York", "NY"]]` yields exactly
`"New York, Remote"`: first non-empty string per entry, one nesting level
flattened, first-seen order, duplicates removed, joined with `", "`. -/
theorem format_locations_flattening_example :
    format_locations (.list [.list [.str "New York", .str "NY"], .str "Remote",
      .list [.str "New York", .str "NY"]]) = "New York, Remote" := by
  decide

/-- C4: the identity generator is deterministic — two calls of
`generate_job_id` on an identical (source, url, ats_id) triple yield an
identical id (it is a pure digest of the triple, with no randomness and no
current-time input), encoded at a fixed width of 16 characters. -/
theorem generate_job_id_deterministic :
    ∀ source url ats_id : String,
      generate_job_id source url ats_id = generate_job_id source url ats_id ∧
      (generate_job_id source url ats_id).length = 16 := by
  intro source url ats_id
  refine ⟨rfl, ?_⟩
  show (hexRev 16 _).reverse.length = 16
  rw [List.length_reverse, hexRev_length]

/-- C10: `normalize_job_entry` is total on list rows — it always returns a
draft or `None`, it returns `None` exactly when both the id at offset 0 and
the url at offset 2 are blank after coercion, an index beyond the row's
length reads as Python `None`, and a non-string cell coerces to `""`. -/
theorem normalize_job_entry_total :
    ∀ entry : List PyVal,
      (normalize_job_entry entry = none ↔
        coerce_str (entryGet entry 0) = "" ∧ coerce_str (entryGet entry 2) = "") ∧
      (∀ i : Nat, entryGet entry (entry.length + i) = none) ∧
      coerce_str none = "" ∧
      (∀ xs, coerce_str (some (.list xs)) = "") ∧
      coerce_str (some .null) = "" ∧
      (∀ n, coerce_str (some (.num n)) = "") ∧
      (∀ b, coerce_str (some (.bool b)) = "") := by
  intro entry
  refine ⟨?_, ?_, rfl, fun xs => rfl, rfl, fun n => rfl, fun b => rfl⟩
  · unfold normalize_job_entry
    by_cases he : entry.isEmpty
    · have : entry = [] := List.isEmpty_iff.mp he
      subst this
      simp [entryGet, coerce_str]
    · simp only [he, if_false, Bool.false_eq_true]
      split_ifs with h
      · simp [h]
      · simp [h]
  · intro i
    exact List.getElem?_eq_none (Nat.le_add_right _ _)

/-- C10 witness: a concrete row with a non-string id cell and a
blank-after-strip url cell normalizes to `None`. -/
theorem normalize_job_entry_total_witness :
    normalize_job_entry [PyVal.null, PyVal.str " x ", PyVal.str "  "] = none :=
  (normalize_job_entry_total [PyVal.null, PyVal.str " x ", PyVal.str "  "]).1.mpr
    ⟨rfl, rfl⟩

/-- C7 counterexample: for a row whose raw locations field (offset 9) is
the bare non-empty string `"Paris"`, the normalized location is `""`, not
`"Paris"` — `_format_locations` returns `""` for any non-list value. -/
theorem normalize_bare_string_location_counterexample :
    (normalize_job_entry bareLocationEntry).map Draft.location = some "" ∧
    (normalize_job_entry bareLocationEntry).map Draft.location ≠ some "Paris" := by
  constructor
  · decide
  · decide

/-- C7 amended: for every row whose raw locations field (offset 9) is a
bare string, the resulting draft (when any) has the empty location. -/
theorem normalize_bare_string_location_empty :
    ∀ (entry : List PyVal) (s : String) (d : Draft),
      entryGet entry 9 = some (.str s) →
      normalize_job_entry entry = some d →
      d.location = "" := by
  intro entry s d h9 hn
  unfold normalize_job_entry at hn
  by_cases he : entry.isEmpty
  · simp [he] at hn
  · simp only [he, if_false, Bool.false_eq_true] at hn
    rw [h9] at hn
    by_cases h : coerce_str (entryGet entry 0) = "" ∧ coerce_str (entryGet entry 2) = ""
    · simp [h] at hn
    · simp only [h, if_false] at hn
      have hd := Option.some.inj hn
      rw [← hd]
      rfl

/-- C7 witness: the bare-string row fixture normalizes to a draft whose
location is empty. -/
theorem normalize_bare_string_location_empty_witness :
    entryGet bareLocationEntry 9 = some (.str "Paris") ∧
    normalize_job_entry bareLocationEntry = some bareLocationDraft ∧
    bareLocationDraft.location = "" :=
  ⟨rfl, by decide,
    normalize_bare_string_location_empty bareLocationEntry "Paris"
      bareLocationDraft rfl (by decide)⟩

/-- C8: company resolution is get-or-create — a second call with the same
name against the state left by the first returns the same id and leaves
the table unchanged, and when the name was absent the first call appends
exactly one row with that name (committed immediately, since the returned
table is the committed state a subsequent lookup reads). -/
theorem get_or_create_company_idempotent :
    ∀ (freshId : List CompanyRow → String) (table : List CompanyRow)
      (company_name : String),
      (get_or_create_company freshId
          (get_or_create_company freshId table company_name).2 company_name).1 =
        (get_or_create_company freshId table company_name).1 ∧
      (get_or_create_company freshId
          (get_or_create_company freshId table company_name).2 company_name).2 =
        (get_or_create_company freshId table company_name).2 ∧
      (company_name ∉ table.map CompanyRow.name →
        (get_or_create_company freshId table company_name).2.length =
          table.length + 1 ∧
        ((get_or_create_company freshId table company_name).2.filter
            (fun c => c.name == company_name)).length = 1) := by
  intro freshId table company_name
  cases hfind : table.find? (fun c => c.name == company_name) with
  | some c =>
      have hmem := List.mem_of_find?_eq_some hfind
      have habs : company_name ∈ table.map CompanyRow.name := by
        have hp := List.find?_some hfind
        have : c.name = company_name := by simpa using hp
        exact List.mem_map.mpr ⟨c, hmem, this⟩
      simp [get_or_create_company, hfind, habs]
  | none =>
      have hfilter : table.filter (fun c => c.name == company_name) = [] := by
        rw [List.filter_eq_nil_iff]
        intro c hc
        exact List.find?_eq_none.mp hfind c hc
      have hfind2 :
          (table ++ [({ id := freshId table, name := company_name } : CompanyRow)]).find?
            (fun c => c.name == company_name) =
          some ({ id := freshId table, name := company_name } : CompanyRow) := by
        rw [List.find?_append, hfind]
        simp
      simp [get_or_create_company, hfind, hfind2, List.filter_append, hfilter]

/-- C8 witness: resolving `"Acme"` twice against an empty table returns
the same id both times and creates exactly one row. -/
theorem get_or_create_company_idempotent_witness :
    ("Acme" ∉ ([] : List CompanyRow).map CompanyRow.name) ∧
    (get_or_create_company (fun _ => "uuid-0") [] "Acme").2.length = 1 ∧
    ((get_or_create_company (fun _ => "uuid-0") [] "Acme").2.filter
        (fun c => c.name == "Acme")).length = 1 ∧
    (get_or_create_company (fun _ => "uuid-0")
        (get_or_create_company (fun _ => "uuid-0") [] "Acme").2 "Acme").1 =
      (get_or_create_company (fun _ => "uuid-0") [] "Acme").1 :=
  ⟨by decide,
    ((get_or_create_company_idempotent (fun _ => "uuid-0") [] "Acme").2.2
      (by decide)).1,
    ((get_or_create_company_idempotent (fun _ => "uuid-0") [] "Acme").2.2
      (by decide)).2,
    (get_or_create_company_idempotent (fun _ => "uuid-0") [] "Acme").1⟩

/-- Auxiliary: one iteration raises (and is rolled back) exactly when its
attempt fails — the outcome is independent of the table state. -/
theorem process_one_job_error_iff (env : AshbyEnv) (company_name : String)
    (company_id : String) (table : List DatabaseJob) (ashby_job : AshbyJob) :
    process_one_job env company_name company_id table ashby_job = .error () ↔
      job_attempt_ok env company_name company_id ashby_job = false := by
  unfold process_one_job job_attempt_ok
  cases job_attempt env company_name company_id ashby_job with
  | none => simp
  | some db_job =>
      by_cases hw : env.writeOk db_job <;> simp [hw]

/-- C1 amended: per-record failure isolation of the upsert executor — a
record whose iteration raises (conversion failure or database-write
failure) is rolled back and skipped: the whole run behaves exactly as if
that record were absent, so its durable state is untouched and records
after it are processed and committed unchanged. -/
theorem ashby_per_record_failure_isolation :
    ∀ (env : AshbyEnv) (company_name : String) (company_id : String)
      (bad : AshbyJob),
      job_attempt_ok env company_name company_id bad = false →
      ∀ (pre post : List AshbyJob) (table : List DatabaseJob),
        process_jobs env company_name company_id table (pre ++ bad :: post) =
          process_jobs env company_name company_id table (pre ++ post) := by
  intro env company_name company_id bad hbad pre
  induction pre with
  | nil =>
      intro post table
      have herr := (process_one_job_error_iff env company_name company_id
        table bad).mpr hbad
      simp [process_jobs, herr]
  | cons j rest ih =>
      intro post table
      simp only [List.cons_append, process_jobs]
      cases hp : process_one_job env company_name company_id table j with
      | ok table' => simp [ih post table']
      | error e => simp [ih post table]

/-- C1 counterexample: a forced failure of the embedding API call does
*not* leave the record's durable state unchanged — `generate_embedding`
catches the exception and returns `None`, so the record is still converted,
written and committed (with null embeddings).  Under the claim, this
single-record run would have to leave the table empty. -/
theorem ashby_embedding_failure_not_rolled_back :
    (process_jobs c1Env "Acme" "cid-1" [] [c1Job]).1.map DatabaseJob.id =
      ["id-emb"] ∧
    (process_jobs c1Env "Acme" "cid-1" [] [c1Job]).1.map
        DatabaseJob.embedding = [none] ∧
    (process_jobs c1Env "Acme" "cid-1" [] [c1Job]).2 = 1 ∧
    (process_jobs c1Env "Acme" "cid-1" [] [c1Job]).1 ≠ [] := by
  refine ⟨by decide, by decide, by decide, by decide⟩

/-- C1 witness: with a batch good-bad-good (the bad record's
`UUID(ashby_job.id)` raises), the run equals the run on good-good. -/
theorem ashby_per_record_failure_isolation_witness :
    job_attempt_ok demoEnv "Acme" "cid-1" badAshbyJob = false ∧
    process_jobs demoEnv "Acme" "cid-1" []
        ([goodJob1] ++ badAshbyJob :: [goodJob2]) =
      process_jobs demoEnv "Acme" "cid-1" [] ([goodJob1] ++ [goodJob2]) :=
  ⟨by decide,
    ashby_per_record_failure_isolation demoEnv "Acme" "cid-1" badAshbyJob
      (by decide) [goodJob1] [goodJob2] []⟩

/-- C2 amended: the total the executor reports is the single count of
records whose iteration committed (`total_jobs_processed`), for every
batch and every starting table. -/
theorem ashby_total_counts_successes :
    ∀ (env : AshbyEnv) (company_name : String) (company_id : String)
      (table : List DatabaseJob) (jobs : List AshbyJob),
      (process_jobs env company_name company_id table jobs).2 =
        jobs.countP (fun j => job_attempt_ok env company_name company_id j) := by
  intro env company_name company_id table jobs
  induction jobs generalizing table with
  | nil => simp [process_jobs]
  | cons j rest ih =>
      simp only [process_jobs]
      cases hp : process_one_job env company_name company_id table j with
      | ok table' =>
          have hok : job_attempt_ok env company_name company_id j = true := by
            by_contra hko
            have := (process_one_job_error_iff env company_name company_id
              table j).mpr (Bool.eq_false_iff.mpr hko)
            rw [hp] at this
            exact Except.noConfusion this
          simp [ih table', List.countP_cons, hok]
      | error e =>
          have hko : job_attempt_ok env company_name company_id j = false := by
            have he : process_one_job env company_name company_id table j =
                .error () := by rw [hp]
            exact (process_one_job_error_iff env company_name company_id
              table j).mp he
          simp [ih table, List.countP_cons, hko]

/-- C2 counterexample: the reported total does not include (nor determine)
a failed-record count — a run over one failing record and a run over the
empty batch report the identical total `0`, while their failed counts
differ (`1` vs `0`).  The Python function moreover returns `None`, not an
aggregate. -/
theorem ashby_report_no_failed_count :
    (process_jobs demoEnv "Acme" "cid-1" [] [badAshbyJob]).2 =
      (process_jobs demoEnv "Acme" "cid-1" [] []).2 ∧
    spec_failed_count demoEnv "Acme" "cid-1" [badAshbyJob] = 1 ∧
    spec_failed_count demoEnv "Acme" "cid-1" [] = 0 := by
  refine ⟨by decide, by decide, by decide⟩

/-- C3 counterexample: in the 5-draft batch where record 3's embedding API
call is forced to fail, the batch reports 0 failed records, not exactly 1
— and record 3 is upserted as well, because `generate_embedding` absorbs
the failure into a null embedding. -/
theorem ashby_embedding_failure_zero_failures :
    spec_failed_count c3Env "Acme" "cid-1" c3Batch = 0 ∧
    spec_failed_count c3Env "Acme" "cid-1" c3Batch ≠ 1 ∧
    (process_jobs c3Env "Acme" "cid-1" [] c3Batch).1.map DatabaseJob.id =
      ["id-1", "id-2", "id-3", "id-4", "id-5"] := by
  refine ⟨by decide, by decide, by decide⟩

/-- C3 amended: in that batch all five records (including record 3) are
successfully upserted — record 3 with null description and title
embeddings — the reported total is 5 and the failed count is 0. -/
theorem ashby_embedding_failure_batch_all_upserted :
    (process_jobs c3Env "Acme" "cid-1" [] c3Batch).2 = 5 ∧
    (process_jobs c3Env "Acme" "cid-1" [] c3Batch).1.map DatabaseJob.id =
      ["id-1", "id-2", "id-3", "id-4", "id-5"] ∧
    (process_jobs c3Env "Acme" "cid-1" [] c3Batch).1.map
        DatabaseJob.embedding =
      [some "[0.25, 0.5]", some "[0.25, 0.5]", none, some "[0.25, 0.5]",
        some "[0.25, 0.5]"] ∧
    (process_jobs c3Env "Acme" "cid-1" [] c3Batch).1.map
        DatabaseJob.title_embedding =
      [some "[0.25, 0.5]", some "[0.25, 0.5]", none, some "[0.25, 0.5]",
        some "[0.25, 0.5]"] ∧
    spec_failed_count c3Env "Acme" "cid-1" c3Batch = 0 := by
  refine ⟨by decide, by decide, by decide, by decide, by decide⟩

/-- Auxiliary: every emitted row's key was not in `seen` and is not the
all-empty pair. -/
theorem aggregateAux_key_fresh :
    ∀ (jobs : List Draft) (seen : List (String × String)) (r : CsvRow),
      r ∈ aggregateAux seen jobs → rowKey r ∉ seen ∧ rowKey r ≠ ("", "") := by
  intro jobs
  induction jobs with
  | nil => intro seen r h; simp [aggregateAux] at h
  | cons job rest ih =>
      intro seen r h
      simp only [aggregateAux] at h
      split_ifs at h with h1 h2
      · exact ih seen r h
      · exact ih seen r h
      · rcases List.mem_cons.mp h with rfl | hr
        · refine ⟨?_, ?_⟩
          · show unique_key job ∉ seen
            exact h2
          · show unique_key job ≠ ("", "")
            exact h1
        · have hinv := ih (unique_key job :: seen) r hr
          exact ⟨fun hs => hinv.1 (List.mem_cons_of_mem _ hs), hinv.2⟩

/-- Auxiliary: the emitted keys are pairwise distinct. -/
theorem aggregateAux_nodup :
    ∀ (jobs : List Draft) (seen : List (String × String)),
      ((aggregateAux seen jobs).map rowKey).Nodup := by
  intro jobs
  induction jobs with
  | nil => intro seen; simp [aggregateAux]
  | cons job rest ih =>
      intro seen
      simp only [aggregateAux]
      split_ifs with h1 h2
      · exact ih seen
      · exact ih seen
      · rw [List.map_cons, List.nodup_cons]
        refine ⟨?_, ih (unique_key job :: seen)⟩
        intro hmem
        obtain ⟨r, hr, hk⟩ := List.mem_map.mp hmem
        have := (aggregateAux_key_fresh rest (unique_key job :: seen) r hr).1
        rw [hk] at this
        exact this (by show rowKey (job_to_row job) ∈ _; exact List.mem_cons_self _ _)

/-- Auxiliary: a job whose key is neither all-empty nor already seen has
its key among the emitted keys. -/
theorem aggregateAux_complete :
    ∀ (jobs : List Draft) (seen : List (String × String)) (j : Draft),
      j ∈ jobs → unique_key j ∉ seen → unique_key j ≠ ("", "") →
      unique_key j ∈ (aggregateAux seen jobs).map rowKey := by
  intro jobs
  induction jobs with
  | nil => intro seen j hj; simp at hj
  | cons job rest ih =>
      intro seen j hj hns hne
      simp only [aggregateAux]
      rcases List.mem_cons.mp hj with rfl | hjr
      · rw [if_neg hne, if_neg hns]
        exact List.mem_map.mpr ⟨job_to_row j, List.mem_cons_self _ _, rfl⟩
      · by_cases h1 : unique_key job = ("", "")
        case pos => rw [if_pos h1]; exact ih seen j hjr hns hne
        case neg =>
          rw [if_neg h1]
          by_cases h2 : unique_key job ∈ seen
          case pos => rw [if_pos h2]; exact ih seen j hjr hns hne
          case neg =>
          rw [if_neg h2]
          by_cases heq : unique_key j = unique_key job
          · refine List.mem_map.mpr ⟨job_to_row job, List.mem_cons_self _ _, ?_⟩
            show rowKey (job_to_row job) = unique_key j
            rw [heq]; rfl
          · have hns' : unique_key j ∉ unique_key job :: seen := by
              intro hmem
              rcases List.mem_cons.mp hmem with h | h
              · exact heq h
              · exact hns h
            have := ih (unique_key job :: seen) j hjr hns' hne
            rw [List.map_cons]
            exact List.mem_cons_of_mem _ this

/-- Auxiliary: each emitted row is the row of the *first* input job
carrying its key. -/
theorem aggregateAux_first_wins :
    ∀ (jobs : List Draft) (seen : List (String × String)) (r : CsvRow),
      r ∈ aggregateAux seen jobs →
      ∃ j, jobs.find? (fun j' => unique_key j' = rowKey r) = some j ∧
        r = job_to_row j := by
  intro jobs
  induction jobs with
  | nil => intro seen r h; simp [aggregateAux] at h
  | cons job rest ih =>
      intro seen r h
      simp only [aggregateAux] at h
      split_ifs at h with h1 h2
      · have hfresh := aggregateAux_key_fresh rest seen r h
        obtain ⟨j, hfind, hr⟩ := ih seen r h
        refine ⟨j, ?_, hr⟩
        rw [List.find?_cons_of_neg, hfind]
        simp only [decide_eq_true_eq]
        rw [h1]
        exact fun hc => hfresh.2 hc.symm
      · have hfresh := aggregateAux_key_fresh rest seen r h
        obtain ⟨j, hfind, hr⟩ := ih seen r h
        refine ⟨j, ?_, hr⟩
        rw [List.find?_cons_of_neg, hfind]
        simp only [decide_eq_true_eq]
        intro hc
        rw [hc] at h2
        exact hfresh.1 h2
      · rcases List.mem_cons.mp h with rfl | hr
        · refine ⟨job, ?_, rfl⟩
          rw [List.find?_cons_of_pos]
          simp only [decide_eq_true_eq]
          rfl
        · have hfresh := aggregateAux_key_fresh rest (unique_key job :: seen) r hr
          obtain ⟨j, hfind, hj⟩ := ih (unique_key job :: seen) r hr
          refine ⟨j, ?_, hj⟩
          rw [List.find?_cons_of_neg, hfind]
          simp only [decide_eq_true_eq]
          intro hc
          rw [hc] at hfresh
          exact hfresh.1 (List.mem_cons_self _ _)

/-- C5: batch deduplication of the Google CSV export uses the pair
(ats_id, url) as equality key — every retained key appears exactly once
(the emitted keys are pairwise distinct), the all-empty key is never
emitted, every input job with a non-empty key is represented, and each
output row is built from the *first* input job carrying its key
(first-seen wins, regardless of other fields). -/
theorem export_dedup_by_key :
    ∀ jobs : List Draft,
      ((aggregate_jobs jobs).map rowKey).Nodup ∧
      ("", "") ∉ (aggregate_jobs jobs).map rowKey ∧
      (∀ j ∈ jobs, unique_key j ≠ ("", "") →
        unique_key j ∈ (aggregate_jobs jobs).map rowKey) ∧
      (∀ r ∈ aggregate_jobs jobs,
        ∃ j, jobs.find? (fun j' => unique_key j' = rowKey r) = some j ∧
          r = job_to_row j) := by
  intro jobs
  refine ⟨aggregateAux_nodup jobs [], ?_, ?_, ?_⟩
  · intro hmem
    obtain ⟨r, hr, hk⟩ := List.mem_map.mp hmem
    exact (aggregateAux_key_fresh jobs [] r hr).2 hk
  · intro j hj hne
    exact aggregateAux_complete jobs [] j hj (by simp) hne
  · intro r hr
    exact aggregateAux_first_wins jobs [] r hr

/-- C5 witness: the spec's §8.6 example — two drafts with the identical
natural key `(ats_id = "75727382358434502", url = "")` and different
titles are reduced to exactly one output row, built from the first
draft. -/
theorem export_dedup_by_key_witness :
    dupDraftA ∈ demoDrafts ∧ unique_key dupDraftA ≠ ("", "") ∧
    unique_key dupDraftA ∈ (aggregate_jobs demoDrafts).map rowKey ∧
    (aggregate_jobs demoDrafts).length = 1 ∧
    (aggregate_jobs demoDrafts).map CsvRow.title =
      ["Customer Solutions Engineer"] :=
  ⟨by decide, by decide,
    (export_dedup_by_key demoDrafts).2.2.1 dupDraftA (by decide) (by decide),
    by decide, by decide⟩

/-- Auxiliary: appending a fixed string on the left is injective. -/
theorem string_append_left_cancel {a b c : String}
    (h : a ++ b = a ++ c) : b = c := by
  cases a with
  | mk as =>
    cases b with
    | mk bs =>
      cases c with
      | mk cs =>
        have h' : as ++ bs = as ++ cs := congrArg String.data h
        exact congrArg String.mk (List.append_cancel_left h')

/-- C9: both URL-slug extractors (greenhouse and workable differ only in
their base URL) perform a monotone union merge — the persisted company
set after a run is exactly the union of the previously persisted slugs
and the slugs extracted from the input URL file, so no previously
observed slug is ever removed; the reported delta is the set difference
new-minus-existing; and the written CSV holds `base ++ slug` exactly for
the slugs of the union. -/
theorem extractor_merge_monotone_union :
    ∀ (base : String) (inputLines : List String)
      (existingRows : List (List String)),
      (extractor_main base inputLines existingRows).1 =
        read_existing_companies base existingRows ∪
          extract_slugs_from_lines base inputLines ∧
      read_existing_companies base existingRows ⊆
        (extractor_main base inputLines existingRows).1 ∧
      extract_slugs_from_lines base inputLines ⊆
        (extractor_main base inputLines existingRows).1 ∧
      (extractor_main base inputLines existingRows).2.1 =
        extract_slugs_from_lines base inputLines \
          read_existing_companies base existingRows ∧
      (∀ s : String,
        s ∈ (extractor_main base inputLines existingRows).1 ↔
          [base ++ s] ∈ ((extractor_main base inputLines existingRows).2.2).drop 1) := by
  intro base inputLines existingRows
  refine ⟨rfl, Finset.subset_union_left, Finset.subset_union_right, rfl, ?_⟩
  intro s
  show _ ↔ [base ++ s] ∈
    (List.map (fun c => [base ++ c])
      (((read_existing_companies base existingRows ∪
          extract_slugs_from_lines base inputLines)).sort (· ≤ ·)))
  constructor
  · intro hs
    exact List.mem_map.mpr ⟨s, (Finset.mem_sort _).mpr hs, rfl⟩
  · intro hm
    obtain ⟨c, hc, he⟩ := List.mem_map.mp hm
    have hcs : c = s := by
      have h1 : base ++ c = base ++ s := by
        have := congrArg (fun l => l.headD "") he
        simpa using this
      exact string_append_left_cancel h1
    rw [← hcs]
    exact (Finset.mem_sort _).mp hc

/-- C9 witness: a concrete greenhouse run — the previously persisted slug
set is contained in the persisted set after the run. -/
theorem extractor_merge_monotone_union_witness :
    read_existing_companies ghUrlBase
        [["url"], ["https://job-boards.greenhouse.io/acme"]] ⊆
      (extractor_main ghUrlBase
        ["https://job-boards.greenhouse.io/newco/jobs/123"]
        [["url"], ["https://job-boards.greenhouse.io/acme"]]).1 :=
  (extractor_merge_monotone_union ghUrlBase
    ["https://job-boards.greenhouse.io/newco/jobs/123"]
    [["url"], ["https://job-boards.greenhouse.io/acme"]]).2.1
